import Mathlib

/-!
Shallow embedding of the interactive Blueprint graph engine:
the graph data model, the viewport (pan/zoom/auto-fit) arithmetic,
the geometry/layout functions, the pointer interaction handlers and
the render projection for connections.  Numbers are modelled as
exact rationals.
-/

/-! ## Layout constants (module-level constants of the visualizer) -/

def NODE_WIDTH : ℚ := 220

def NODE_HEADER_HEIGHT : ℚ := 30

def PIN_HEIGHT : ℚ := 22

def PIN_OFFSET_Y : ℚ := 10

/-! ## Graph data model -/

structure GraphPin where
  id : String
  name : String
  type : String
  direction : String
  dataType : String
deriving DecidableEq, Repr

structure GraphNode where
  id : String
  name : String
  type : String
  x : ℚ
  y : ℚ
  properties : Option String
  codeSnippet : Option String
  pins : List GraphPin
deriving DecidableEq, Repr

structure GraphConnection where
  fromPinId : String
  toPinId : String
deriving DecidableEq, Repr

structure GraphVariable where
  name : String
  type : String
deriving DecidableEq, Repr

/-- The graph aggregate; `vars` embeds the `variables` field of
`GraphData` (that field name is reserved in Lean). -/
structure GraphData where
  nodes : List GraphNode
  connections : List GraphConnection
  vars : List GraphVariable
deriving DecidableEq, Repr

/-! ## Viewport -/

structure ViewTransform where
  x : ℚ
  y : ℚ
  scale : ℚ
deriving DecidableEq, Repr

/-- `handleWheel`: anchor-preserving zoom at the mouse position, with the
scale multiplied by `1 - deltaY * 0.01 * zoomIntensity` and clamped to
`[0.1, 2.0]`. -/
def handleWheel (vt : ViewTransform) (mouseX mouseY deltaY : ℚ) : ViewTransform :=
  let zoomIntensity : ℚ := 1/10
  let newScale := vt.scale * (1 - deltaY * (1/100) * zoomIntensity)
  let minScale : ℚ := 1/10
  let maxScale : ℚ := 2
  let clampedScale := max minScale (min maxScale newScale)
  let pointX := (mouseX - vt.x) / vt.scale
  let pointY := (mouseY - vt.y) / vt.scale
  { x := mouseX - pointX * clampedScale
    y := mouseY - pointY * clampedScale
    scale := clampedScale }

/-- A whole sequence of wheel events, each carrying a mouse position and a
wheel delta, applied in order. -/
def applyWheelEvents (vt : ViewTransform) (events : List (ℚ × ℚ × ℚ)) : ViewTransform :=
  events.foldl (fun v e => handleWheel v e.1 e.2.1 e.2.2) vt

theorem handleWheel_scale_bounds (vt : ViewTransform) (mouseX mouseY deltaY : ℚ) :
    1/10 ≤ (handleWheel vt mouseX mouseY deltaY).scale ∧
      (handleWheel vt mouseX mouseY deltaY).scale ≤ 2 := by
  constructor
  · exact le_max_left _ _
  · exact max_le (by norm_num) (min_le_left _ _)

/-- C1: zoom anchor invariance.  For a viewport whose scale lies in
`[0.1, 2.0]`, `handleWheel` keeps the graph-space point under the mouse
fixed: `(P - offset) / scale` is unchanged by the zoom (exactly, in ℚ). -/
theorem zoom_anchor_invariance (vt : ViewTransform) (mouseX mouseY deltaY : ℚ)
    (h1 : 1/10 ≤ vt.scale) (h2 : vt.scale ≤ 2) :
    (mouseX - (handleWheel vt mouseX mouseY deltaY).x) /
        (handleWheel vt mouseX mouseY deltaY).scale = (mouseX - vt.x) / vt.scale ∧
    (mouseY - (handleWheel vt mouseX mouseY deltaY).y) /
        (handleWheel vt mouseX mouseY deltaY).scale = (mouseY - vt.y) / vt.scale := by
  have hs : vt.scale ≠ 0 := by
    intro h
    rw [h] at h1
    norm_num at h1
  have hcs : (handleWheel vt mouseX mouseY deltaY).scale ≠ 0 := by
    intro h
    have := (handleWheel_scale_bounds vt mouseX mouseY deltaY).1
    rw [h] at this
    norm_num at this
  constructor
  · show (mouseX - (mouseX - (mouseX - vt.x) / vt.scale * (handleWheel vt mouseX mouseY deltaY).scale)) / _ = _
    field_simp
    ring
  · show (mouseY - (mouseY - (mouseY - vt.y) / vt.scale * (handleWheel vt mouseX mouseY deltaY).scale)) / _ = _
    field_simp
    ring

theorem zoom_anchor_invariance_witness :
    (1/10 ≤ (ViewTransform.mk 0 0 1).scale ∧ (ViewTransform.mk 0 0 1).scale ≤ 2) ∧
    ((100 - (handleWheel ⟨0, 0, 1⟩ 100 50 10).x) /
        (handleWheel ⟨0, 0, 1⟩ 100 50 10).scale = (100 - (0:ℚ)) / 1 ∧
     (50 - (handleWheel ⟨0, 0, 1⟩ 100 50 10).y) /
        (handleWheel ⟨0, 0, 1⟩ 100 50 10).scale = (50 - (0:ℚ)) / 1) :=
  ⟨⟨by norm_num, by norm_num⟩,
    zoom_anchor_invariance ⟨0, 0, 1⟩ 100 50 10 (by norm_num) (by norm_num)⟩

/-- C3: scale clamping.  Starting from any scale in `[0.1, 2.0]`, every
finite sequence of wheel events leaves the scale in `[0.1, 2.0]`. -/
theorem scale_stays_clamped (vt : ViewTransform) (events : List (ℚ × ℚ × ℚ))
    (h1 : 1/10 ≤ vt.scale) (h2 : vt.scale ≤ 2) :
    1/10 ≤ (applyWheelEvents vt events).scale ∧ (applyWheelEvents vt events).scale ≤ 2 := by
  induction events generalizing vt with
  | nil => exact ⟨h1, h2⟩
  | cons e es ih =>
      have hb := handleWheel_scale_bounds vt e.1 e.2.1 e.2.2
      exact ih (handleWheel vt e.1 e.2.1 e.2.2) hb.1 hb.2

theorem scale_stays_clamped_witness :
    (1/10 ≤ (ViewTransform.mk 0 0 1).scale ∧ (ViewTransform.mk 0 0 1).scale ≤ 2) ∧
    (1/10 ≤ (applyWheelEvents ⟨0, 0, 1⟩ [(0, 0, -100), (0, 0, -100), (5, 5, 300)]).scale ∧
      (applyWheelEvents ⟨0, 0, 1⟩ [(0, 0, -100), (0, 0, -100), (5, 5, 300)]).scale ≤ 2) :=
  ⟨⟨by norm_num, by norm_num⟩,
    scale_stays_clamped ⟨0, 0, 1⟩ [(0, 0, -100), (0, 0, -100), (5, 5, 300)]
      (by norm_num) (by norm_num)⟩

/-- C9: a wheel event with delta 0 is the identity on a viewport whose
scale already lies in `[0.1, 2.0]`. -/
theorem wheel_zero_identity (vt : ViewTransform) (mouseX mouseY : ℚ)
    (h1 : 1/10 ≤ vt.scale) (h2 : vt.scale ≤ 2) :
    handleWheel vt mouseX mouseY 0 = vt := by
  have hs : vt.scale ≠ 0 := by
    intro h
    rw [h] at h1
    norm_num at h1
  have hclamp : max (1/10 : ℚ) (min 2 (vt.scale * (1 - 0 * (1/100) * (1/10)))) = vt.scale := by
    rw [show vt.scale * (1 - 0 * (1/100) * (1/10)) = vt.scale by ring]
    rw [min_eq_right h2, max_eq_right h1]
  show ViewTransform.mk _ _ _ = vt
  rw [hclamp]
  have hx : mouseX - (mouseX - vt.x) / vt.scale * vt.scale = vt.x := by
    field_simp
  have hy : mouseY - (mouseY - vt.y) / vt.scale * vt.scale = vt.y := by
    field_simp
  rw [hx, hy]

theorem wheel_zero_identity_witness :
    (1/10 ≤ (ViewTransform.mk 3 4 (1/2)).scale ∧ (ViewTransform.mk 3 4 (1/2)).scale ≤ 2) ∧
    handleWheel ⟨3, 4, 1/2⟩ 7 9 0 = ⟨3, 4, 1/2⟩ :=
  ⟨⟨by norm_num, by norm_num⟩,
    wheel_zero_identity ⟨3, 4, 1/2⟩ 7 9 (by norm_num) (by norm_num)⟩

/-! ## Geometry / layout -/

/-- Derived node height: header plus vertical offset plus one row per pin
on the fuller side. -/
def calculateNodeHeight (node : GraphNode) : ℚ :=
  let inputPins := (node.pins.filter (fun p => p.direction == "in")).length
  let outputPins := (node.pins.filter (fun p => p.direction == "out")).length
  NODE_HEADER_HEIGHT + PIN_OFFSET_Y + (max inputPins outputPins : ℕ) * PIN_HEIGHT

/-- `getPinPosition`: locate a pin by id in the node's pin list and return
its absolute position; a missing pin id yields the node's top-left corner. -/
def getPinPosition (node : GraphNode) (pinId : String) : ℚ × ℚ :=
  match node.pins.find? (fun p => p.id == pinId) with
  | none => (node.x, node.y)
  | some pin =>
    let pinsInSameDirection := node.pins.filter (fun p => p.direction == pin.direction)
    let pinIndex := pinsInSameDirection.findIdx (fun p => p.id == pinId)
    let x := if pin.direction == "in" then node.x else node.x + NODE_WIDTH
    let y := node.y + NODE_HEADER_HEIGHT + PIN_OFFSET_Y + (pinIndex : ℚ) * PIN_HEIGHT +
      PIN_HEIGHT / 2
    (x, y)

/-- The vertical distance from a node's header bottom edge to the centre of
its first pin row: `PIN_OFFSET_Y + PIN_HEIGHT / 2`. -/
def pinTopPadding : ℚ := PIN_OFFSET_Y + PIN_HEIGHT / 2

theorem findIdx_append_middle {α : Type} (p : α → Bool) (l₁ l₂ : List α) (b : α)
    (h1 : ∀ a ∈ l₁, p a = false) (hb : p b = true) :
    (l₁ ++ b :: l₂).findIdx p = l₁.length := by
  induction l₁ with
  | nil => simp [List.findIdx_cons, hb]
  | cons a t ih =>
      have ha := h1 a (by simp)
      simp only [List.cons_append, List.findIdx_cons, ha, cond_false]
      rw [ih (fun x hx => h1 x (by simp [hx]))]
      simp

/-- C8: per-pin row layout.  For a node with pairwise-distinct pin ids and
a pin whose same-direction list splits as `l₁ ++ pin :: l₂` (so the pin's
index among same-direction pins is `l₁.length`), `getPinPosition` returns
`x = node.x` for direction `"in"` and `x = node.x + NODE_WIDTH` otherwise,
and `y = node.y + NODE_HEADER_HEIGHT + pinTopPadding + index * PIN_HEIGHT`. -/
theorem getPinPosition_row_layout (node : GraphNode) (pin : GraphPin)
    (l₁ l₂ : List GraphPin)
    (hnodup : (node.pins.map (fun p => p.id)).Nodup)
    (hsplit : node.pins.filter (fun p => p.direction == pin.direction) = l₁ ++ pin :: l₂) :
    getPinPosition node pin.id =
      ((if pin.direction == "in" then node.x else node.x + NODE_WIDTH),
        node.y + NODE_HEADER_HEIGHT + pinTopPadding + (l₁.length : ℚ) * PIN_HEIGHT) := by
  have hmem : pin ∈ node.pins := by
    have : pin ∈ node.pins.filter (fun p => p.direction == pin.direction) := by
      rw [hsplit]
      simp
    exact List.mem_of_mem_filter this
  have hinj := List.inj_on_of_nodup_map hnodup
  have hfind : node.pins.find? (fun p => p.id == pin.id) = some pin := by
    have hsome : (node.pins.find? (fun p => p.id == pin.id)).isSome := by
      rw [List.find?_isSome]
      exact ⟨pin, hmem, by simp⟩
    obtain ⟨q, hq⟩ := Option.isSome_iff_exists.mp hsome
    have hqmem : q ∈ node.pins := List.mem_of_find?_eq_some hq
    have hqid : q.id = pin.id := by
      have := List.find?_some hq
      simpa using this
    rw [hq, hinj hqmem hmem hqid]
  have hpinsnodup : node.pins.Nodup := by
    exact hnodup.of_map (fun p => p.id)
  have hfilternodup : (l₁ ++ pin :: l₂).Nodup := by
    rw [← hsplit]
    exact hpinsnodup.filter _
  have hnotl₁ : pin ∉ l₁ := by
    intro hin
    rw [List.nodup_append] at hfilternodup
    exact hfilternodup.2.2 hin (List.mem_cons_self pin l₂)
  have hidx : (node.pins.filter (fun p => p.direction == pin.direction)).findIdx
      (fun p => p.id == pin.id) = l₁.length := by
    rw [hsplit]
    apply findIdx_append_middle
    · intro a ha
      have hamem : a ∈ node.pins := by
        have : a ∈ node.pins.filter (fun p => p.direction == pin.direction) := by
          rw [hsplit]
          exact List.mem_append_left _ ha
        exact List.mem_of_mem_filter this
      by_contra hcon
      have haid : a.id = pin.id := by
        simpa using Bool.not_eq_false _ |>.mp hcon
      exact hnotl₁ (hinj hamem hmem haid ▸ ha)
    · simp
  unfold getPinPosition
  rw [hfind]
  simp only [hidx, pinTopPadding]
  ring_nf

def sampleInPin1 : GraphPin := ⟨"p1", "A", "data", "in", "Integer"⟩

def sampleInPin2 : GraphPin := ⟨"p2", "B", "data", "in", "Boolean"⟩

def sampleOutPin : GraphPin := ⟨"p3", "C", "exec", "out", "Exec"⟩

def sampleNode : GraphNode :=
  ⟨"n1", "Sample", "function", 100, 200, none, none,
    [sampleInPin1, sampleInPin2, sampleOutPin]⟩

theorem getPinPosition_row_layout_witness :
    ((sampleNode.pins.map (fun p => p.id)).Nodup ∧
      sampleNode.pins.filter (fun p => p.direction == sampleInPin2.direction) =
        [sampleInPin1] ++ sampleInPin2 :: []) ∧
    getPinPosition sampleNode sampleInPin2.id =
      ((if sampleInPin2.direction == "in" then sampleNode.x else sampleNode.x + NODE_WIDTH),
        sampleNode.y + NODE_HEADER_HEIGHT + pinTopPadding +
          (([sampleInPin1] : List GraphPin).length : ℚ) * PIN_HEIGHT) :=
  ⟨⟨by decide, by decide⟩,
    getPinPosition_row_layout sampleNode sampleInPin2 [sampleInPin1] [] (by decide) (by decide)⟩

/-- C10: `getPinPosition` is total on dangling pin ids: when no pin of the
node carries the requested id, it returns the node's top-left corner. -/
theorem getPinPosition_dangling (node : GraphNode) (pinId : String)
    (h : ∀ p ∈ node.pins, p.id ≠ pinId) :
    getPinPosition node pinId = (node.x, node.y) := by
  have hnone : node.pins.find? (fun p => p.id == pinId) = none := by
    rw [List.find?_eq_none]
    intro p hp
    simp [h p hp]
  unfold getPinPosition
  rw [hnone]

theorem getPinPosition_dangling_witness :
    (∀ p ∈ sampleNode.pins, p.id ≠ "missing-pin") ∧
    getPinPosition sampleNode "missing-pin" = (sampleNode.x, sampleNode.y) :=
  ⟨by decide, getPinPosition_dangling sampleNode "missing-pin" (by decide)⟩

/-! ## Auto-fit (the non-interactive effect of the visualizer) -/

structure Bounds where
  minX : ℚ
  minY : ℚ
  maxX : ℚ
  maxY : ℚ
deriving DecidableEq, Repr

/-- One step of the bounds fold over the node list. -/
def nodeBoundsStep (b : Bounds) (node : GraphNode) : Bounds :=
  { minX := min b.minX node.x
    minY := min b.minY node.y
    maxX := max b.maxX (node.x + NODE_WIDTH)
    maxY := max b.maxY (node.y + calculateNodeHeight node) }

/-- Bounding box of all node rectangles; `none` for an empty node list
(the effect only runs when `nodes.length > 0`).  The JS fold starts from
infinities, so on a nonempty list the head node's own rectangle is the
starting accumulator. -/
def computeBounds : List GraphNode → Option Bounds
  | [] => none
  | n :: ns =>
      some (ns.foldl nodeBoundsStep
        ⟨n.x, n.y, n.x + NODE_WIDTH, n.y + calculateNodeHeight n⟩)

/-- The auto-fit computation: scale to fit the bounds in the container
with 50px padding, capped at 1, then center; the viewport is left
unchanged when the bounds are degenerate or there are no nodes. -/
def autoFit (nodes : List GraphNode) (containerWidth containerHeight : ℚ)
    (vt : ViewTransform) : ViewTransform :=
  match computeBounds nodes with
  | none => vt
  | some b =>
    let PADDING : ℚ := 50
    let graphWidth := b.maxX - b.minX
    let graphHeight := b.maxY - b.minY
    if 0 < graphWidth ∧ 0 < graphHeight then
      let scaleX := (containerWidth - PADDING * 2) / graphWidth
      let scaleY := (containerHeight - PADDING * 2) / graphHeight
      let scale := min (min scaleX scaleY) 1
      { x := (containerWidth - graphWidth * scale) / 2 - b.minX * scale
        y := (containerHeight - graphHeight * scale) / 2 - b.minY * scale
        scale := scale }
    else vt

/-- A node with no pins at the origin; its derived height is 40. -/
def scenarioNodeA : GraphNode := ⟨"a", "A", "event", 0, 0, none, none, []⟩

/-- A node with no pins placed so that the two-node bounds are exactly
1000 wide (780 + 220) and 500 tall (460 + 40). -/
def scenarioNodeB : GraphNode := ⟨"b", "B", "function", 780, 460, none, none, []⟩

theorem scenarioC_bounds :
    computeBounds [scenarioNodeA, scenarioNodeB] = some ⟨0, 0, 1000, 500⟩ := by
  show some (nodeBoundsStep _ scenarioNodeB) = _
  norm_num [nodeBoundsStep, calculateNodeHeight, scenarioNodeA, scenarioNodeB,
    NODE_WIDTH, NODE_HEADER_HEIGHT, PIN_OFFSET_Y, PIN_HEIGHT, min_def, max_def]

theorem autoFit_scenarioC_eval :
    autoFit [scenarioNodeA, scenarioNodeB] 800 600 ⟨50, 50, 1⟩ = ⟨50, 125, 7/10⟩ := by
  unfold autoFit
  rw [scenarioC_bounds]
  norm_num [min_def]

/-- C5, counterexample: on bounds 1000×500, container 800×600, padding 50,
the auto-fit scale is not 0.5 (it is 0.7 = min(700/1000, 500/500, 1)). -/
theorem autoFit_scenarioC_not_half :
    (autoFit [scenarioNodeA, scenarioNodeB] 800 600 ⟨50, 50, 1⟩).scale ≠ 1/2 := by
  rw [autoFit_scenarioC_eval]
  norm_num

/-- C5, amended: on bounds 1000×500, container 800×600, padding 50, the
auto-fit scale is `min((800−2·50)/1000, (600−2·50)/500, 1) = 0.7`, and the
scaled bounds are centered: offset (50, 125) leaves equal margins
(800−700)/2 and (600−350)/2 on the two axes. -/
theorem autoFit_scenarioC :
    autoFit [scenarioNodeA, scenarioNodeB] 800 600 ⟨50, 50, 1⟩ = ⟨50, 125, 7/10⟩ ∧
    (7/10 : ℚ) = min (min ((800 - 50 * 2) / 1000) ((600 - 50 * 2) / 500)) 1 ∧
    (50 : ℚ) = (800 - 1000 * (7/10)) / 2 - 0 * (7/10) ∧
    (125 : ℚ) = (600 - 500 * (7/10)) / 2 - 0 * (7/10) := by
  refine ⟨autoFit_scenarioC_eval, ?_, by norm_num, by norm_num⟩
  norm_num [min_def]

/-! ## Render projection for connections -/

def DATA_TYPE_COLORS : List (String × String) :=
  [("Exec", "#FFFFFF"), ("Boolean", "#C0392B"), ("Integer", "#2ECC71"),
   ("Float", "#1ABC9C"), ("String", "#F39C12"), ("Name", "#D2B4DE"),
   ("Vector", "#F1C40F"), ("Rotator", "#A569BD"), ("Transform", "#E67E22"),
   ("Object", "#3498DB")]

/-- Colour for a data type, with the `default` entry as fallback. -/
def dataTypeColor (dataType : String) : String :=
  match DATA_TYPE_COLORS.lookup dataType with
  | some c => c
  | none => "#95A5A6"

/-- The `pinToNodeMap` lookup: the map is built by iterating nodes in
order and overwriting, so the last node owning the pin id wins. -/
def pinToNode (nodes : List GraphNode) (pinId : String) : Option GraphNode :=
  nodes.reverse.find? (fun n => n.pins.any (fun p => p.id == pinId))

/-- The `pinMap` lookup, with the same last-wins overwrite order. -/
def pinById (nodes : List GraphNode) (pinId : String) : Option GraphPin :=
  (nodes.flatMap (fun n => n.pins)).reverse.find? (fun p => p.id == pinId)

/-- One cubic-Bezier path primitive of the scene, with stroke style. -/
structure EdgePath where
  startX : ℚ
  startY : ℚ
  c1x : ℚ
  c1y : ℚ
  c2x : ℚ
  c2y : ℚ
  endX : ℚ
  endY : ℚ
  strokeColor : String
  strokeWidth : ℚ
deriving DecidableEq, Repr

/-- Projection of one connection: resolve both endpoint nodes and the
source pin; yield `none` (no primitive) when any lookup fails. -/
def renderConnection (nodes : List GraphNode) (conn : GraphConnection) : Option EdgePath :=
  match pinToNode nodes conn.fromPinId, pinToNode nodes conn.toPinId,
      pinById nodes conn.fromPinId with
  | some fromNode, some toNode, some fromPin =>
      let s := getPinPosition fromNode conn.fromPinId
      let e := getPinPosition toNode conn.toPinId
      some { startX := s.1, startY := s.2
             c1x := s.1 + |e.1 - s.1| * (6/10), c1y := s.2
             c2x := e.1 - |e.1 - s.1| * (6/10), c2y := e.2
             endX := e.1, endY := e.2
             strokeColor :=
               if fromPin.type == "exec" then "#FFFFFF" else dataTypeColor fromPin.dataType
             strokeWidth := if fromPin.type == "exec" then 5/2 else 2 }
  | _, _, _ => none

/-- All connection primitives of the scene, dropped `none`s included. -/
def renderConnections (gd : GraphData) : List EdgePath :=
  (gd.connections.map (renderConnection gd.nodes)).reduceOption

/-- Body rectangle primitive of one node. -/
structure NodeBox where
  x : ℚ
  y : ℚ
  width : ℚ
  height : ℚ
deriving DecidableEq, Repr

/-- All node primitives of the scene; a function of the node list only. -/
def renderNodes (gd : GraphData) : List NodeBox :=
  gd.nodes.map (fun n => ⟨n.x, n.y, NODE_WIDTH, calculateNodeHeight n⟩)

theorem pinToNode_eq_none (nodes : List GraphNode) (pinId : String)
    (h : ∀ n ∈ nodes, ∀ p ∈ n.pins, p.id ≠ pinId) :
    pinToNode nodes pinId = none := by
  unfold pinToNode
  rw [List.find?_eq_none]
  intro n hn
  rw [List.mem_reverse] at hn
  simp only [List.any_eq_true, beq_iff_eq, not_exists]
  intro p
  rw [not_and]
  exact fun hp => h n hn p hp

theorem renderConnection_none_of_from (nodes : List GraphNode) (conn : GraphConnection)
    (h : pinToNode nodes conn.fromPinId = none) :
    renderConnection nodes conn = none := by
  unfold renderConnection
  rw [h]

theorem renderConnection_none_of_to (nodes : List GraphNode) (conn : GraphConnection)
    (h : pinToNode nodes conn.toPinId = none) :
    renderConnection nodes conn = none := by
  unfold renderConnection
  rw [h]
  cases pinToNode nodes conn.fromPinId <;> rfl

theorem reduceOption_map_erase {α β : Type} [DecidableEq α] (f : α → Option β)
    (l : List α) (a : α) (ha : f a = none) :
    ((l.erase a).map f).reduceOption = (l.map f).reduceOption := by
  induction l with
  | nil => simp
  | cons b t ih =>
      by_cases hba : b = a
      · subst hba
        rw [List.erase_cons_head]
        simp [List.reduceOption_cons_of_none, ha]
      · rw [List.erase_cons_tail]
        · cases hfb : f b <;>
            simp [List.reduceOption_cons_of_none, List.reduceOption_cons_of_some, hfb, ih]
        · simp [hba]

/-- C6: a connection whose `fromPinId` or `toPinId` resolves to no pin of
any node yields no path primitive, and the scene (connection primitives
and node primitives) is exactly the scene of the graph without that
connection: every other node and resolvable connection is still
rendered. -/
theorem dangling_connection_omitted (gd : GraphData) (c : GraphConnection)
    (hmem : c ∈ gd.connections)
    (hdangling : (∀ n ∈ gd.nodes, ∀ p ∈ n.pins, p.id ≠ c.fromPinId) ∨
      (∀ n ∈ gd.nodes, ∀ p ∈ n.pins, p.id ≠ c.toPinId)) :
    renderConnection gd.nodes c = none ∧
    renderConnections gd = renderConnections ⟨gd.nodes, gd.connections.erase c, gd.vars⟩ ∧
    renderNodes gd = renderNodes ⟨gd.nodes, gd.connections.erase c, gd.vars⟩ := by
  have hnone : renderConnection gd.nodes c = none := by
    rcases hdangling with h | h
    · exact renderConnection_none_of_from _ _ (pinToNode_eq_none _ _ h)
    · exact renderConnection_none_of_to _ _ (pinToNode_eq_none _ _ h)
  refine ⟨hnone, ?_, rfl⟩
  unfold renderConnections
  exact (reduceOption_map_erase (renderConnection gd.nodes) gd.connections c hnone).symm

def danglingGraph : GraphData :=
  ⟨[sampleNode], [⟨"p3", "p1"⟩, ⟨"p3", "missing-pin"⟩], []⟩

theorem dangling_connection_omitted_witness :
    ((⟨"p3", "missing-pin"⟩ : GraphConnection) ∈ danglingGraph.connections ∧
      (∀ n ∈ danglingGraph.nodes, ∀ p ∈ n.pins, p.id ≠ "missing-pin")) ∧
    (renderConnection danglingGraph.nodes ⟨"p3", "missing-pin"⟩ = none ∧
      renderConnections danglingGraph =
        renderConnections
          ⟨danglingGraph.nodes, danglingGraph.connections.erase ⟨"p3", "missing-pin"⟩,
            danglingGraph.vars⟩ ∧
      renderNodes danglingGraph =
        renderNodes
          ⟨danglingGraph.nodes, danglingGraph.connections.erase ⟨"p3", "missing-pin"⟩,
            danglingGraph.vars⟩) :=
  ⟨⟨by decide, by decide⟩,
    dangling_connection_omitted danglingGraph ⟨"p3", "missing-pin"⟩ (by decide)
      (Or.inr (by decide))⟩

/-! ## Interaction state machine (pan / drag / select) -/

structure DragInfo where
  id : String
  initialX : ℚ
  initialY : ℚ
deriving DecidableEq, Repr

structure InteractionState where
  graph : GraphData
  viewTransform : ViewTransform
  isPanning : Bool
  draggingNode : Option DragInfo
  selectedNode : Option GraphNode
  interactionStartX : ℚ
  interactionStartY : ℚ
  wasDragged : Bool
deriving DecidableEq, Repr

/-- The `nodeMap` lookup (built by overwriting in node order, so the last
node with the id wins). -/
def nodeById (nodes : List GraphNode) (nodeId : String) : Option GraphNode :=
  nodes.reverse.find? (fun n => n.id == nodeId)

/-- Pointer-down on a node: record the drag anchor and the node's pre-drag
position; reset the real-drag flag. -/
def handleNodeMouseDown (st : InteractionState) (clientX clientY : ℚ)
    (nodeId : String) : InteractionState :=
  match nodeById st.graph.nodes nodeId with
  | none => st
  | some node =>
      { st with
          draggingNode := some ⟨nodeId, node.x, node.y⟩
          interactionStartX := clientX
          interactionStartY := clientY
          wasDragged := false }

/-- `moveNode`: positional update of every node carrying the id. -/
def moveNodeTo (nodes : List GraphNode) (nodeId : String) (newX newY : ℚ) :
    List GraphNode :=
  nodes.map (fun node =>
    if node.id == nodeId then { node with x := newX, y := newY } else node)

/-- Pointer-move: while dragging a node, flag a real drag past the 5px
threshold (clearing the selection) and move the node by the graph-space
delta; while panning, shift the viewport by the raw screen delta. -/
def handleMouseMove (st : InteractionState) (clientX clientY : ℚ) : InteractionState :=
  let dx := clientX - st.interactionStartX
  let dy := clientY - st.interactionStartY
  match st.draggingNode with
  | some dragging =>
      let st1 :=
        if 5 < |dx| ∨ 5 < |dy| then
          { st with wasDragged := true, selectedNode := none }
        else st
      { st1 with
          graph := { st1.graph with
            nodes := moveNodeTo st1.graph.nodes dragging.id
              (dragging.initialX + dx / st.viewTransform.scale)
              (dragging.initialY + dy / st.viewTransform.scale) } }
  | none =>
      if st.isPanning then
        { st with
            viewTransform := { st.viewTransform with
              x := st.viewTransform.x + dx
              y := st.viewTransform.y + dy }
            interactionStartX := clientX
            interactionStartY := clientY }
      else st

/-- Pointer-up: a drag that never crossed the threshold selects the
node under the drag id; panning and dragging end. -/
def handleMouseUp (st : InteractionState) : InteractionState :=
  let st1 :=
    match st.draggingNode with
    | some dragging =>
        if st.wasDragged then st
        else { st with selectedNode := nodeById st.graph.nodes dragging.id }
    | none => st
  { st1 with isPanning := false, draggingNode := none }

/-- A full pointer-down / pointer-moves / pointer-up gesture on a node. -/
def runNodeGesture (st : InteractionState) (downX downY : ℚ) (nodeId : String)
    (moves : List (ℚ × ℚ)) : InteractionState :=
  handleMouseUp
    (moves.foldl (fun s m => handleMouseMove s m.1 m.2)
      (handleNodeMouseDown st downX downY nodeId))

theorem moveNodeTo_moveNodeTo (nodes : List GraphNode) (nid : String) (a b c d : ℚ) :
    moveNodeTo (moveNodeTo nodes nid a b) nid c d = moveNodeTo nodes nid c d := by
  unfold moveNodeTo
  rw [List.map_map]
  apply List.map_congr_left
  intro node _
  by_cases h : node.id = nid <;> simp [h]

theorem nodeById_of_nodup (nodes : List GraphNode) (n : GraphNode)
    (hnodup : (nodes.map (fun nd => nd.id)).Nodup) (hmem : n ∈ nodes) :
    nodeById nodes n.id = some n := by
  have hinj := List.inj_on_of_nodup_map hnodup
  have hsome : (nodes.reverse.find? (fun nd => nd.id == n.id)).isSome := by
    rw [List.find?_isSome]
    exact ⟨n, List.mem_reverse.mpr hmem, by simp⟩
  obtain ⟨q, hq⟩ := Option.isSome_iff_exists.mp hsome
  have hqmem : q ∈ nodes := List.mem_reverse.mp (List.mem_of_find?_eq_some hq)
  have hqid : q.id = n.id := by simpa using List.find?_some hq
  unfold nodeById
  rw [hq, hinj hqmem hmem hqid]

theorem nodeById_some_id (nodes : List GraphNode) (nodeId : String) (q : GraphNode)
    (h : nodeById nodes nodeId = some q) : q.id = nodeId := by
  simpa using List.find?_some h

theorem exists_nodeById_moveNodeTo (nodes : List GraphNode) (n : GraphNode)
    (hmem : n ∈ nodes) (nid : String) (a b : ℚ) :
    ∃ q, nodeById (moveNodeTo nodes nid a b) n.id = some q ∧ q.id = n.id := by
  have hex : ∃ q ∈ moveNodeTo nodes nid a b, q.id = n.id := by
    refine ⟨if n.id == nid then { n with x := a, y := b } else n, ?_, ?_⟩
    · exact List.mem_map_of_mem _ hmem
    · by_cases h : n.id = nid <;> simp [h]
  obtain ⟨q0, hq0, hq0id⟩ := hex
  have hsome : ((moveNodeTo nodes nid a b).reverse.find? (fun nd => nd.id == n.id)).isSome := by
    rw [List.find?_isSome]
    exact ⟨q0, List.mem_reverse.mpr hq0, by simp [hq0id]⟩
  obtain ⟨q, hq⟩ := Option.isSome_iff_exists.mp hsome
  exact ⟨q, hq, by simpa using List.find?_some hq⟩

/-- The 5px real-drag test of `handleMouseMove`, as a Boolean predicate on
a move event relative to the gesture's anchor. -/
def exceedsThreshold (sx sy : ℚ) (m : ℚ × ℚ) : Bool :=
  decide (5 < |m.1 - sx| ∨ 5 < |m.2 - sy|)

theorem drag_fold_spec (g : GraphData) (vt : ViewTransform) (pan : Bool)
    (sel0 : Option GraphNode) (nid : String) (ix iy sx sy : ℚ)
    (moves : List (ℚ × ℚ)) :
    moves.foldl (fun s m => handleMouseMove s m.1 m.2)
        ⟨g, vt, pan, some ⟨nid, ix, iy⟩, sel0, sx, sy, false⟩ =
      ⟨⟨(match moves.getLast? with
          | none => g.nodes
          | some m => moveNodeTo g.nodes nid (ix + (m.1 - sx) / vt.scale)
              (iy + (m.2 - sy) / vt.scale)),
         g.connections, g.vars⟩,
        vt, pan, some ⟨nid, ix, iy⟩,
        (if moves.any (exceedsThreshold sx sy) then none else sel0),
        sx, sy, moves.any (exceedsThreshold sx sy)⟩ := by
  induction moves using List.reverseRecOn with
  | nil => rfl
  | append_singleton ms m ih =>
      rw [List.foldl_append, ih]
      simp only [List.foldl_cons, List.foldl_nil]
      rw [List.getLast?_concat, List.any_append]
      simp only [List.any_cons, List.any_nil, Bool.or_false]
      by_cases hc : 5 < |m.1 - sx| ∨ 5 < |m.2 - sy|
      · have hp : exceedsThreshold sx sy m = true := by
          simp [exceedsThreshold, hc]
        simp only [handleMouseMove, hc, if_true, hp, Bool.or_true]
        cases hl : ms.getLast? with
        | none => simp
        | some m' => simp [moveNodeTo_moveNodeTo]
      · have hp : exceedsThreshold sx sy m = false := by
          simp only [exceedsThreshold, decide_eq_false_iff_not]
          exact hc
        simp only [handleMouseMove, hc, if_false, hp, Bool.or_false]
        cases hl : ms.getLast? with
        | none => simp
        | some m' => simp [moveNodeTo_moveNodeTo]

theorem handleMouseUp_explicit (G : GraphData) (vt : ViewTransform) (pan : Bool)
    (d : DragInfo) (sel : Option GraphNode) (sx sy : ℚ) (w : Bool) :
    handleMouseUp ⟨G, vt, pan, some d, sel, sx, sy, w⟩ =
      ⟨G, vt, false, none, (if w then sel else nodeById G.nodes d.id), sx, sy, w⟩ := by
  cases w <;> rfl

/-- C4, amended: a pointer-down / moves / up gesture on a node ends
selected (with dragging and panning off) when every move stayed within
5px of the down point on both axes; it ends with no selection, no drag,
no pan, and the node moved by the last move's screen delta divided by the
scale, as soon as some move strictly exceeded 5px on an axis (the code's
threshold is `> 5`, not `≥ 5`). -/
theorem drag_vs_click (st : InteractionState) (n : GraphNode) (downX downY : ℚ)
    (moves : List (ℚ × ℚ))
    (hmem : n ∈ st.graph.nodes)
    (hnodup : (st.graph.nodes.map (fun nd => nd.id)).Nodup) :
    ((∀ m ∈ moves, |m.1 - downX| ≤ 5 ∧ |m.2 - downY| ≤ 5) →
      (runNodeGesture st downX downY n.id moves).draggingNode = none ∧
      (runNodeGesture st downX downY n.id moves).isPanning = false ∧
      ∃ sel, (runNodeGesture st downX downY n.id moves).selectedNode = some sel ∧
        sel.id = n.id) ∧
    ((∃ m ∈ moves, 5 < |m.1 - downX| ∨ 5 < |m.2 - downY|) →
      (runNodeGesture st downX downY n.id moves).draggingNode = none ∧
      (runNodeGesture st downX downY n.id moves).isPanning = false ∧
      (runNodeGesture st downX downY n.id moves).selectedNode = none ∧
      ∃ last, moves.getLast? = some last ∧
        ∀ nd ∈ (runNodeGesture st downX downY n.id moves).graph.nodes, nd.id = n.id →
          nd.x = n.x + (last.1 - downX) / st.viewTransform.scale ∧
          nd.y = n.y + (last.2 - downY) / st.viewTransform.scale) := by
  have hdown : handleNodeMouseDown st downX downY n.id =
      ⟨st.graph, st.viewTransform, st.isPanning, some ⟨n.id, n.x, n.y⟩,
        st.selectedNode, downX, downY, false⟩ := by
    unfold handleNodeMouseDown
    rw [nodeById_of_nodup st.graph.nodes n hnodup hmem]
  have hrun : runNodeGesture st downX downY n.id moves =
      ⟨⟨(match moves.getLast? with
          | none => st.graph.nodes
          | some m => moveNodeTo st.graph.nodes n.id
              (n.x + (m.1 - downX) / st.viewTransform.scale)
              (n.y + (m.2 - downY) / st.viewTransform.scale)),
         st.graph.connections, st.graph.vars⟩,
        st.viewTransform, false, none,
        (if moves.any (exceedsThreshold downX downY) then
          (if moves.any (exceedsThreshold downX downY) then none else st.selectedNode)
         else
          nodeById (match moves.getLast? with
            | none => st.graph.nodes
            | some m => moveNodeTo st.graph.nodes n.id
                (n.x + (m.1 - downX) / st.viewTransform.scale)
                (n.y + (m.2 - downY) / st.viewTransform.scale)) n.id),
        downX, downY, moves.any (exceedsThreshold downX downY)⟩ := by
    unfold runNodeGesture
    rw [hdown, drag_fold_spec, handleMouseUp_explicit]
  constructor
  · intro h
    have hany : moves.any (exceedsThreshold downX downY) = false := by
      rw [List.any_eq_false]
      intro m hm
      simp only [exceedsThreshold, decide_eq_true_eq]
      rw [not_or]
      exact ⟨not_lt.mpr (h m hm).1, not_lt.mpr (h m hm).2⟩
    rw [hrun, hany]
    refine ⟨rfl, rfl, ?_⟩
    simp only [Bool.false_eq_true, if_false]
    cases hl : moves.getLast? with
    | none => exact ⟨n, nodeById_of_nodup st.graph.nodes n hnodup hmem, rfl⟩
    | some m => exact exists_nodeById_moveNodeTo st.graph.nodes n hmem n.id _ _
  · rintro ⟨m, hm, hcross⟩
    have hany : moves.any (exceedsThreshold downX downY) = true := by
      rw [List.any_eq_true]
      exact ⟨m, hm, by simp [exceedsThreshold, hcross]⟩
    have hne : moves ≠ [] := List.ne_nil_of_mem hm
    obtain ⟨last, hlast⟩ := Option.isSome_iff_exists.mp (List.getLast?_isSome.mpr hne)
    rw [hrun, hany, hlast]
    refine ⟨rfl, rfl, by simp, last, rfl, ?_⟩
    intro nd hnd hid
    obtain ⟨node0, hn0, rfl⟩ := List.mem_map.mp hnd
    by_cases h0 : node0.id = n.id
    · simp [h0]
    · exfalso
      simp only [beq_iff_eq, h0, if_false] at hid

def gestureState : InteractionState :=
  ⟨⟨[sampleNode], [], []⟩, ⟨0, 0, 1⟩, false, none, none, 0, 0, false⟩

theorem drag_vs_click_witness :
    (sampleNode ∈ gestureState.graph.nodes ∧
      (gestureState.graph.nodes.map (fun nd => nd.id)).Nodup) ∧
    (((∀ m ∈ ([((10 : ℚ), (0 : ℚ))] : List (ℚ × ℚ)), |m.1 - 0| ≤ 5 ∧ |m.2 - 0| ≤ 5) →
      (runNodeGesture gestureState 0 0 sampleNode.id [(10, 0)]).draggingNode = none ∧
      (runNodeGesture gestureState 0 0 sampleNode.id [(10, 0)]).isPanning = false ∧
      ∃ sel, (runNodeGesture gestureState 0 0 sampleNode.id [(10, 0)]).selectedNode = some sel ∧
        sel.id = sampleNode.id) ∧
    ((∃ m ∈ ([((10 : ℚ), (0 : ℚ))] : List (ℚ × ℚ)), 5 < |m.1 - 0| ∨ 5 < |m.2 - 0|) →
      (runNodeGesture gestureState 0 0 sampleNode.id [(10, 0)]).draggingNode = none ∧
      (runNodeGesture gestureState 0 0 sampleNode.id [(10, 0)]).isPanning = false ∧
      (runNodeGesture gestureState 0 0 sampleNode.id [(10, 0)]).selectedNode = none ∧
      ∃ last, ([((10 : ℚ), (0 : ℚ))] : List (ℚ × ℚ)).getLast? = some last ∧
        ∀ nd ∈ (runNodeGesture gestureState 0 0 sampleNode.id [(10, 0)]).graph.nodes,
          nd.id = sampleNode.id →
          nd.x = sampleNode.x + (last.1 - 0) / gestureState.viewTransform.scale ∧
          nd.y = sampleNode.y + (last.2 - 0) / gestureState.viewTransform.scale)) :=
  ⟨⟨List.mem_cons_self _ _, by simp [gestureState]⟩,
    drag_vs_click gestureState sampleNode 0 0 [(10, 0)] (List.mem_cons_self _ _)
      (by simp [gestureState])⟩

/-- C4, counterexample: a gesture whose single move has screen
displacement exactly 5px (so "at least 5px" holds) still ends with a node
selected, because the code's real-drag test is strictly greater than
5px; the claim predicts no selection there. -/
theorem drag_at_threshold_selects :
    (runNodeGesture gestureState 0 0 "n1" [(5, 0)]).selectedNode ≠ none := by
  have hdown : handleNodeMouseDown gestureState 0 0 "n1" =
      ⟨gestureState.graph, gestureState.viewTransform, gestureState.isPanning,
        some ⟨"n1", 100, 200⟩, gestureState.selectedNode, 0, 0, false⟩ := by
    rfl
  have hfold := drag_fold_spec gestureState.graph gestureState.viewTransform
    gestureState.isPanning gestureState.selectedNode "n1" 100 200 0 0 [(5, 0)]
  have hany : ([((5 : ℚ), (0 : ℚ))] : List (ℚ × ℚ)).any (exceedsThreshold 0 0) = false := by
    simp only [List.any_cons, List.any_nil, Bool.or_false, exceedsThreshold,
      decide_eq_false_iff_not]
    rw [not_or]
    constructor <;> norm_num
  unfold runNodeGesture
  rw [hdown, hfold, hany, handleMouseUp_explicit]
  simp only [Bool.false_eq_true, if_false]
  obtain ⟨q, hq, hqid⟩ := exists_nodeById_moveNodeTo gestureState.graph.nodes sampleNode
    (List.mem_cons_self _ _) "n1"
    (100 + ((5 : ℚ) - 0) / gestureState.viewTransform.scale)
    (200 + ((0 : ℚ) - 0) / gestureState.viewTransform.scale)
  have hq' : nodeById
      (moveNodeTo gestureState.graph.nodes "n1"
        (100 + ((5 : ℚ) - 0) / gestureState.viewTransform.scale)
        (200 + ((0 : ℚ) - 0) / gestureState.viewTransform.scale)) "n1" = some q := hq
  rw [show (([((5 : ℚ), (0 : ℚ))] : List (ℚ × ℚ)).getLast?) = some (5, 0) from rfl]
  rw [hq']
  simp

/-! ## Graph model mutation operations -/

/-- The variable-derived-node test of `handleDeleteVariable`. -/
def isDerivedNode (variableName : String) (n : GraphNode) : Bool :=
  (n.type == "variable_get" || n.type == "variable_set") &&
    (n.name == "Get " ++ variableName || n.name == "Set " ++ variableName)

/-- `removeVariable`: drop the variable, every "Get <name>" / "Set <name>"
node of the variable kinds, and every connection touching a pin of a
dropped node. -/
def handleDeleteVariable (variableName : String) (prev : GraphData) : GraphData :=
  let nodesToRemove := prev.nodes.filter (isDerivedNode variableName)
  let pinsToRemove := nodesToRemove.flatMap (fun n => n.pins.map (fun p => p.id))
  { prev with
      vars := prev.vars.filter (fun v => !(v.name == variableName))
      nodes := prev.nodes.filter (fun n =>
        !(nodesToRemove.any (fun removed => removed.id == n.id)))
      connections := prev.connections.filter (fun c =>
        !(pinsToRemove.contains c.fromPinId) && !(pinsToRemove.contains c.toPinId)) }

theorem isDerivedNode_iff (V : String) (n : GraphNode) :
    isDerivedNode V n = true ↔
      ((n.type = "variable_get" ∨ n.type = "variable_set") ∧
        (n.name = "Get " ++ V ∨ n.name = "Set " ++ V)) := by
  simp [isDerivedNode]

theorem derived_eq_get_or_set (V : String) (gd : GraphData) (gGet gSet : GraphNode)
    (honly : ∀ n ∈ gd.nodes, isDerivedNode V n = true → n = gGet ∨ n = gSet)
    (r : GraphNode) (hr : r ∈ gd.nodes.filter (isDerivedNode V)) :
    r = gGet ∨ r = gSet := by
  rw [List.mem_filter] at hr
  exact honly r hr.1 hr.2

theorem contains_false_iff (l : List String) (a : String) :
    l.contains a = false ↔ a ∉ l := by
  constructor
  · intro h hmem
    have hc : l.contains a = true := by simp [hmem]
    rw [h] at hc
    exact Bool.false_ne_true hc
  · intro h
    cases hc : l.contains a
    · rfl
    · exact absurd (by simpa using hc) h

theorem removedPins_iff (V : String) (gd : GraphData) (gGet gSet : GraphNode)
    (hGmem : gGet ∈ gd.nodes) (hPget : isDerivedNode V gGet = true)
    (hSmem : gSet ∈ gd.nodes) (hPset : isDerivedNode V gSet = true)
    (honly : ∀ n ∈ gd.nodes, isDerivedNode V n = true → n = gGet ∨ n = gSet)
    (x : String) :
    x ∈ (gd.nodes.filter (isDerivedNode V)).flatMap (fun n => n.pins.map (fun p => p.id)) ↔
      ∃ p ∈ gGet.pins ++ gSet.pins, p.id = x := by
  rw [List.mem_flatMap]
  constructor
  · rintro ⟨r, hr, hx⟩
    rw [List.mem_map] at hx
    obtain ⟨p, hp, rfl⟩ := hx
    rcases derived_eq_get_or_set V gd gGet gSet honly r hr with rfl | rfl
    · exact ⟨p, List.mem_append_left _ hp, rfl⟩
    · exact ⟨p, List.mem_append_right _ hp, rfl⟩
  · rintro ⟨p, hp, rfl⟩
    rcases List.mem_append.mp hp with h | h
    · exact ⟨gGet, List.mem_filter.mpr ⟨hGmem, hPget⟩, List.mem_map_of_mem _ h⟩
    · exact ⟨gSet, List.mem_filter.mpr ⟨hSmem, hPset⟩, List.mem_map_of_mem _ h⟩

/-- C2: `removeVariable` on a graph holding a variable named `V`, a
"Get V" node of kind `variable_get` and a "Set V" node of kind
`variable_set` (and no other V-derived node) removes exactly: the
variables named `V`, those two nodes, and every connection whose
endpoint pin belongs to them — every other variable, node and connection
is kept. -/
theorem removeVariable_spec (V : String) (gd : GraphData) (gGet gSet : GraphNode)
    (hvar : ∃ v ∈ gd.vars, v.name = V)
    (hnodup : (gd.nodes.map (fun nd => nd.id)).Nodup)
    (hGmem : gGet ∈ gd.nodes) (hGname : gGet.name = "Get " ++ V)
    (hGtype : gGet.type = "variable_get")
    (hSmem : gSet ∈ gd.nodes) (hSname : gSet.name = "Set " ++ V)
    (hStype : gSet.type = "variable_set")
    (honly : ∀ n ∈ gd.nodes, isDerivedNode V n = true → n = gGet ∨ n = gSet) :
    (∀ v : GraphVariable, v ∈ (handleDeleteVariable V gd).vars ↔
      (v ∈ gd.vars ∧ v.name ≠ V)) ∧
    (∀ n : GraphNode, n ∈ (handleDeleteVariable V gd).nodes ↔
      (n ∈ gd.nodes ∧ n ≠ gGet ∧ n ≠ gSet)) ∧
    (∀ c : GraphConnection, c ∈ (handleDeleteVariable V gd).connections ↔
      (c ∈ gd.connections ∧
        ∀ p ∈ gGet.pins ++ gSet.pins, c.fromPinId ≠ p.id ∧ c.toPinId ≠ p.id)) := by
  have hinj := List.inj_on_of_nodup_map hnodup
  have hPget : isDerivedNode V gGet = true := by
    rw [isDerivedNode_iff]
    exact ⟨Or.inl hGtype, Or.inl hGname⟩
  have hPset : isDerivedNode V gSet = true := by
    rw [isDerivedNode_iff]
    exact ⟨Or.inr hStype, Or.inr hSname⟩
  refine ⟨?_, ?_, ?_⟩
  · intro v
    show v ∈ gd.vars.filter _ ↔ _
    rw [List.mem_filter]
    simp
  · intro n
    show n ∈ gd.nodes.filter _ ↔ _
    rw [List.mem_filter]
    constructor
    · rintro ⟨hn, hcond⟩
      rw [Bool.not_eq_true', List.any_eq_false] at hcond
      refine ⟨hn, ?_, ?_⟩
      · rintro rfl
        have hx := hcond n (List.mem_filter.mpr ⟨hn, hPget⟩)
        simp at hx
      · rintro rfl
        have hx := hcond n (List.mem_filter.mpr ⟨hn, hPset⟩)
        simp at hx
    · rintro ⟨hn, hng, hns⟩
      refine ⟨hn, ?_⟩
      rw [Bool.not_eq_true', List.any_eq_false]
      intro r hr
      simp only [beq_iff_eq]
      intro hid
      have hrmem : r ∈ gd.nodes := (List.mem_filter.mp hr).1
      have : n = r := (hinj hrmem hn hid).symm
      rcases derived_eq_get_or_set V gd gGet gSet honly r hr with rfl | rfl
      · exact hng this
      · exact hns this
  · intro c
    show c ∈ gd.connections.filter _ ↔ _
    rw [List.mem_filter]
    have hpins := removedPins_iff V gd gGet gSet hGmem hPget hSmem hPset honly
    constructor
    · rintro ⟨hc, hcond⟩
      rw [Bool.and_eq_true, Bool.not_eq_true', Bool.not_eq_true',
        contains_false_iff, contains_false_iff] at hcond
      refine ⟨hc, ?_⟩
      intro p hp
      constructor
      · intro heq
        exact hcond.1 ((hpins c.fromPinId).mpr ⟨p, hp, heq.symm⟩)
      · intro heq
        exact hcond.2 ((hpins c.toPinId).mpr ⟨p, hp, heq.symm⟩)
    · rintro ⟨hc, hp⟩
      refine ⟨hc, ?_⟩
      rw [Bool.and_eq_true, Bool.not_eq_true', Bool.not_eq_true',
        contains_false_iff, contains_false_iff]
      constructor
      · intro hmem
        obtain ⟨p, hpmem, hpid⟩ := (hpins c.fromPinId).mp hmem
        exact (hp p hpmem).1 hpid.symm
      · intro hmem
        obtain ⟨p, hpmem, hpid⟩ := (hpins c.toPinId).mp hmem
        exact (hp p hpmem).2 hpid.symm

def getHealthNode : GraphNode :=
  ⟨"ng", "Get PlayerHealth", "variable_get", 0, 0, none, none,
    [⟨"pg1", "Value", "data", "out", "Integer"⟩]⟩

def setHealthNode : GraphNode :=
  ⟨"ns", "Set PlayerHealth", "variable_set", 0, 100, none, none,
    [⟨"ps1", "", "exec", "in", "Exec"⟩, ⟨"ps2", "", "exec", "out", "Exec"⟩,
     ⟨"ps3", "PlayerHealth", "data", "in", "Integer"⟩]⟩

def printNode : GraphNode :=
  ⟨"no", "PrintString", "function", 300, 0, none, none,
    [⟨"po1", "", "exec", "in", "Exec"⟩, ⟨"po2", "In", "data", "in", "String"⟩]⟩

def scenarioBGraph : GraphData :=
  ⟨[getHealthNode, setHealthNode, printNode],
    [⟨"pg1", "po2"⟩, ⟨"ps2", "po1"⟩],
    [⟨"PlayerHealth", "Integer"⟩, ⟨"Speed", "Float"⟩]⟩

theorem removeVariable_spec_witness :
    ((∃ v ∈ scenarioBGraph.vars, v.name = "PlayerHealth") ∧
      (scenarioBGraph.nodes.map (fun nd => nd.id)).Nodup ∧
      getHealthNode ∈ scenarioBGraph.nodes ∧
      getHealthNode.name = "Get " ++ "PlayerHealth" ∧
      getHealthNode.type = "variable_get" ∧
      setHealthNode ∈ scenarioBGraph.nodes ∧
      setHealthNode.name = "Set " ++ "PlayerHealth" ∧
      setHealthNode.type = "variable_set" ∧
      (∀ n ∈ scenarioBGraph.nodes, isDerivedNode "PlayerHealth" n = true →
        n = getHealthNode ∨ n = setHealthNode)) ∧
    ((∀ v : GraphVariable, v ∈ (handleDeleteVariable "PlayerHealth" scenarioBGraph).vars ↔
      (v ∈ scenarioBGraph.vars ∧ v.name ≠ "PlayerHealth")) ∧
    (∀ n : GraphNode, n ∈ (handleDeleteVariable "PlayerHealth" scenarioBGraph).nodes ↔
      (n ∈ scenarioBGraph.nodes ∧ n ≠ getHealthNode ∧ n ≠ setHealthNode)) ∧
    (∀ c : GraphConnection, c ∈ (handleDeleteVariable "PlayerHealth" scenarioBGraph).connections ↔
      (c ∈ scenarioBGraph.connections ∧
        ∀ p ∈ getHealthNode.pins ++ setHealthNode.pins,
          c.fromPinId ≠ p.id ∧ c.toPinId ≠ p.id))) :=
  ⟨⟨⟨⟨"PlayerHealth", "Integer"⟩, by simp [scenarioBGraph], rfl⟩,
    by decide, by decide, rfl, rfl, by decide, rfl, rfl, by decide⟩,
    removeVariable_spec "PlayerHealth" scenarioBGraph getHealthNode setHealthNode
      ⟨⟨"PlayerHealth", "Integer"⟩, by simp [scenarioBGraph], rfl⟩
      (by decide) (by decide) rfl rfl (by decide) rfl rfl (by decide)⟩


/-- The JavaScript `String.prototype.trim`: strip leading and trailing
whitespace (embedded on the character list, where it computes). -/
def jsTrim (s : String) : String :=
  ⟨((s.data.dropWhile Char.isWhitespace).reverse.dropWhile Char.isWhitespace).reverse⟩

/-- The JavaScript `String.prototype.toLowerCase` (ASCII case folding,
embedded on the character list, where it computes). -/
def jsToLower (s : String) : String :=
  ⟨s.data.map Char.toLower⟩

/-- `addVariable`: trim the name; reject the empty name and any
case-insensitive duplicate (no-op); otherwise append the variable. -/
def handleAddVariable (gd : GraphData) (newVariableName newVariableType : String) : GraphData :=
  if jsTrim newVariableName == "" ||
      gd.vars.any (fun v => jsToLower v.name == jsToLower (jsTrim newVariableName)) then gd
  else { gd with vars := gd.vars ++ [⟨jsTrim newVariableName, newVariableType⟩] }

theorem addVariable_noop (gd : GraphData) (name ty : String)
    (h : jsTrim name = "" ∨ ∃ v ∈ gd.vars, jsToLower v.name = jsToLower (jsTrim name)) :
    handleAddVariable gd name ty = gd := by
  have hcond : (jsTrim name == "" ||
      gd.vars.any (fun v => jsToLower v.name == jsToLower (jsTrim name))) = true := by
    rcases h with h | ⟨v, hv, hveq⟩
    · simp [h]
    · rw [Bool.or_eq_true]
      exact Or.inr (List.any_eq_true.mpr ⟨v, hv, by simp [hveq]⟩)
  unfold handleAddVariable
  rw [if_pos hcond]

/-- C7: `addVariable` is a no-op whenever the trimmed name is empty or
case-insensitively duplicates an existing variable name, and adding
"Health" twice to a graph with no case-insensitive "health" variable
leaves exactly one variable whose name lowercases to "health". -/
theorem addVariable_validation (gd : GraphData) (name ty : String) :
    ((jsTrim name = "" ∨ ∃ v ∈ gd.vars, jsToLower v.name = jsToLower (jsTrim name)) →
      handleAddVariable gd name ty = gd) ∧
    ((∀ v ∈ gd.vars, jsToLower v.name ≠ "health") →
      ((handleAddVariable (handleAddVariable gd "Health" "Integer")
          "Health" "Integer").vars.filter
        (fun v => jsToLower v.name == "health")).length = 1) := by
  constructor
  · exact addVariable_noop gd name ty
  · intro h
    have htrim : jsTrim "Health" = "Health" := by decide
    have hlow : jsToLower "Health" = "health" := by decide
    have h1 : handleAddVariable gd "Health" "Integer" =
        { gd with vars := gd.vars ++ [⟨"Health", "Integer"⟩] } := by
      have hcond : (jsTrim "Health" == "" ||
          gd.vars.any (fun v => jsToLower v.name == jsToLower (jsTrim "Health"))) = false := by
        rw [htrim]
        have c1 : (("Health" : String) == "") = false := by decide
        have c2 : gd.vars.any (fun v => jsToLower v.name == jsToLower "Health") = false := by
          rw [List.any_eq_false]
          intro v hv
          simp only [beq_iff_eq, hlow]
          exact h v hv
        rw [c1, c2]
        rfl
      unfold handleAddVariable
      rw [if_neg (by rw [hcond]; exact Bool.false_ne_true), htrim]
    have hdup : jsTrim "Health" = "" ∨
        ∃ v ∈ (GraphData.mk gd.nodes gd.connections
          (gd.vars ++ [⟨"Health", "Integer"⟩])).vars,
          jsToLower v.name = jsToLower (jsTrim "Health") :=
      Or.inr ⟨⟨"Health", "Integer"⟩, by simp, by rw [htrim]⟩
    have h2 : handleAddVariable { gd with vars := gd.vars ++ [⟨"Health", "Integer"⟩] }
        "Health" "Integer" = { gd with vars := gd.vars ++ [⟨"Health", "Integer"⟩] } :=
      addVariable_noop _ "Health" "Integer" hdup
    rw [h1, h2]
    show ((gd.vars ++ [GraphVariable.mk "Health" "Integer"]).filter
      (fun v => jsToLower v.name == "health")).length = 1
    rw [List.filter_append]
    have hfst : gd.vars.filter (fun v => jsToLower v.name == "health") = [] := by
      rw [List.filter_eq_nil_iff]
      intro v hv
      simp only [beq_iff_eq]
      exact h v hv
    rw [hfst]
    simp [hlow]

theorem addVariable_validation_witness :
    ((jsTrim "" = "" ∨
        ∃ v ∈ (GraphData.mk [] [] [⟨"Speed", "Float"⟩]).vars,
          jsToLower v.name = jsToLower (jsTrim "")) ∧
      (∀ v ∈ (GraphData.mk [] [] [⟨"Speed", "Float"⟩]).vars, jsToLower v.name ≠ "health")) ∧
    (handleAddVariable ⟨[], [], [⟨"Speed", "Float"⟩]⟩ "" "Integer" =
        ⟨[], [], [⟨"Speed", "Float"⟩]⟩ ∧
      ((handleAddVariable (handleAddVariable ⟨[], [], [⟨"Speed", "Float"⟩]⟩ "Health" "Integer")
          "Health" "Integer").vars.filter
        (fun v => jsToLower v.name == "health")).length = 1) :=
  ⟨⟨Or.inl (by decide), by decide⟩,
    (addVariable_validation ⟨[], [], [⟨"Speed", "Float"⟩]⟩ "" "Integer").1 (Or.inl (by decide)),
    (addVariable_validation ⟨[], [], [⟨"Speed", "Float"⟩]⟩ "" "Integer").2 (by decide)⟩
